import Mathlib

/-!
Shallow embedding of the spatial placement engine and the selection /
grouping state machine of `src/InteractionManager.js` (the second, live
`InteractionManager` class, line 453 onwards).

Modelling conventions:
* JavaScript numbers are modelled as rationals (`ℚ`); the source never
  relies on floating-point rounding for the properties studied here.
* `Math.round` is round-half-up (`jround`), as in JavaScript.
* `THREE.Vector3` / `THREE.Box3` become `V3` / `Box3` records of rationals.
* The scene graph becomes the inductive tree `SceneNode`; a mesh node
  stores its bounding box relative to its own origin, so that the world
  box computed by `THREE.Box3().setFromObject(part)` is that box
  translated by the accumulated positions along the path from the root.
  Rotations are not modelled (the claims studied here do not exercise
  them); `Object3D.attach` therefore becomes pure translation
  re-parenting.
* Callback side effects (`onBrickRemoved`, `onBrickAdded`,
  `onSelectionChanged`) are modelled as an emitted list of `UIEvent`s.
-/

namespace Lego

/-- JavaScript `Math.round`: round half toward positive infinity. -/
def jround (q : ℚ) : ℤ := ⌊q + 1/2⌋

/-- JavaScript `a || b` on numbers: `b` when `a` is falsy (i.e. `0`), else `a`.
Used for `this.studHeight || 0.16`. -/
def jsOr (a b : ℚ) : ℚ := if a = 0 then b else a

/-- `THREE.Vector3`. -/
structure V3 where
  x : ℚ
  y : ℚ
  z : ℚ
deriving DecidableEq

def V3.add (a b : V3) : V3 := ⟨a.x + b.x, a.y + b.y, a.z + b.z⟩

def V3.zero : V3 := ⟨0, 0, 0⟩

/-- `THREE.Box3`: an axis-aligned box given by its two corners. -/
structure Box3 where
  minX : ℚ
  minY : ℚ
  minZ : ℚ
  maxX : ℚ
  maxY : ℚ
  maxZ : ℚ
deriving DecidableEq

/-- Translate a box by a vector (used to turn an object-local bounding box
into the world box `Box3.setFromObject` returns). -/
def translateBox (p : V3) (b : Box3) : Box3 :=
  ⟨b.minX + p.x, b.minY + p.y, b.minZ + p.z, b.maxX + p.x, b.maxY + p.y, b.maxZ + p.z⟩

/-! ## Grid model: `setStudGrid`, `snapToStudGrid` -/

/-- The stud-grid configuration fields of `InteractionManager`, as set by
`setStudGrid`. -/
structure GridCfg where
  studSpacing : ℚ
  studHeight : ℚ
  brickHeight : ℚ
  verticalGridSize : ℚ
  gridStartX : ℚ
  gridStartZ : ℚ
deriving DecidableEq

/-- `setStudGrid(studSpacing, studHeight, startX, startZ, brickHeight)`:
stores the grid configuration; `verticalGridSize = brickHeight - studHeight`
(height of the brick body without the stud). -/
def setStudGrid (studSpacing studHeight startX startZ brickHeight : ℚ) : GridCfg :=
  { studSpacing := studSpacing
    studHeight := studHeight
    brickHeight := brickHeight
    verticalGridSize := brickHeight - studHeight
    gridStartX := startX
    gridStartZ := startZ }

/-- Whether a bounding-box extent spans an even number of studs:
`Math.round(size / studSpacing) % 2 === 0`. -/
def evenStuds (studSpacing size : ℚ) : Bool := jround (size / studSpacing) % 2 == 0

/-- One axis of `snapToStudGrid` (the X and Z computations are literally
symmetric in the source): the offset from the grid start is snapped to a
stud index for an odd stud count (`Math.round(offset / spacing)`) and to a
between-studs position for an even one
(`Math.round(offset / spacing - 0.5) + 0.5`), then mapped back to world
coordinates. -/
def snapAxis (gridStart studSpacing coord : ℚ) (even : Bool) : ℚ :=
  let offset := coord - gridStart
  let stud : ℚ :=
    if even then (jround (offset / studSpacing - 1/2) : ℚ) + 1/2
    else (jround (offset / studSpacing) : ℚ)
  gridStart + stud * studSpacing

/-- `snapToStudGrid(x, z, brickMesh)`. The mesh argument contributes only the
X/Z size of its bounding box, modelled as the optional pair
`(size.x, size.z)`; `none` stands for a `null` (omitted) mesh, for which both
axes keep the default `evenStuds = true`. -/
def snapToStudGrid (g : GridCfg) (x z : ℚ) (brickSize : Option (ℚ × ℚ)) : ℚ × ℚ :=
  let evenStudsX : Bool :=
    match brickSize with
    | none => true
    | some s => evenStuds g.studSpacing s.1
  let evenStudsZ : Bool :=
    match brickSize with
    | none => true
    | some s => evenStuds g.studSpacing s.2
  (snapAxis g.gridStartX g.studSpacing x evenStudsX,
   snapAxis g.gridStartZ g.studSpacing z evenStudsZ)

/-! ## `checkBoxOverlap` -/

/-- `Box3.expandByScalar(s)`: grows the box by `s` on every side (shrinks it
when `s` is negative). -/
def expandByScalar (b : Box3) (s : ℚ) : Box3 :=
  ⟨b.minX - s, b.minY - s, b.minZ - s, b.maxX + s, b.maxY + s, b.maxZ + s⟩

/-- `Box3.intersect`: componentwise max of the mins and min of the maxes. -/
def boxIntersect (a b : Box3) : Box3 :=
  ⟨max a.minX b.minX, max a.minY b.minY, max a.minZ b.minZ,
   min a.maxX b.maxX, min a.maxY b.maxY, min a.maxZ b.maxZ⟩

/-- `Box3.isEmpty`: some max strictly below the corresponding min. -/
def boxIsEmpty (b : Box3) : Prop :=
  b.maxX < b.minX ∨ b.maxY < b.minY ∨ b.maxZ < b.minZ

instance (b : Box3) : Decidable (boxIsEmpty b) := by
  unfold boxIsEmpty
  exact inferInstance

/-- `Box3.getSize`, X component: `0` for an empty box, else `max - min`. -/
def getSizeX (b : Box3) : ℚ := if boxIsEmpty b then 0 else b.maxX - b.minX

/-- `Box3.getSize`, Y component. -/
def getSizeY (b : Box3) : ℚ := if boxIsEmpty b then 0 else b.maxY - b.minY

/-- `Box3.getSize`, Z component. -/
def getSizeZ (b : Box3) : ℚ := if boxIsEmpty b then 0 else b.maxZ - b.minZ

/-- `checkBoxOverlap(box1, box2)`: shrinks both boxes by `epsilon = 0.01`,
intersects them, and reports overlap only when the intersection is non-empty
with extent above `epsilon` on all three axes. (`THREE.Box3.intersect`
additionally calls `makeEmpty()` on an empty result, which does not change
the emptiness test performed here.) -/
def checkBoxOverlap (box1 box2 : Box3) : Bool :=
  let epsilon : ℚ := 1/100
  let intersection := boxIntersect (expandByScalar box1 (-epsilon)) (expandByScalar box2 (-epsilon))
  if boxIsEmpty intersection then false
  else decide (getSizeX intersection > epsilon) &&
       decide (getSizeY intersection > epsilon) &&
       decide (getSizeZ intersection > epsilon)

/-! ## Gizmo Y-axis drag (from `onMouseMove`, mode `gizmo-drag`, axis `y`) -/

/-- The new Y coordinate computed for one selected object during a Y-axis
gizmo drag: `delta.y = mouseDeltaY * verticalDragFactor` is added to the
object's drag-start Y, the result is snapped to the vertical grid when
`verticalGridSize > 0`, and finally clamped to the ground (`y >= 0`).
(`snapToStudGrid` is applied afterwards to X and Z only.) -/
def gizmoDragNewY (g : GridCfg) (verticalDragFactor origY mouseDeltaY : ℚ) : ℚ :=
  let deltaY := mouseDeltaY * verticalDragFactor
  let y1 := origY + deltaY
  let y2 :=
    if 0 < g.verticalGridSize then (jround (y1 / g.verticalGridSize) : ℚ) * g.verticalGridSize
    else y1
  if y2 < 0 then 0 else y2

/-! ## Scene graph -/

/-- A node of the scene graph: an atomic mesh (`isMesh`) or a `THREE.Group`
(`isGroup`). `pos` is the node's position relative to its parent; a mesh's
`box` is its bounding box relative to the mesh's own origin. -/
inductive SceneNode where
  | mesh (uuid : ℕ) (pos : V3) (box : Box3)
  | group (uuid : ℕ) (pos : V3) (children : List SceneNode)

def SceneNode.uuid : SceneNode → ℕ
  | .mesh u _ _ => u
  | .group u _ _ => u

def SceneNode.pos : SceneNode → V3
  | .mesh _ p _ => p
  | .group _ p _ => p

mutual
/-- The `getMeshes` helper of `findValidPlacementPosition`: the leaf meshes
of an object, each paired with its world bounding box
(`new THREE.Box3().setFromObject(part)`); `base` is the accumulated world
position of the parent chain. -/
def getMeshes (base : V3) : SceneNode → List (ℕ × Box3)
  | .mesh u p b => [(u, translateBox (base.add p) b)]
  | .group _ p cs => getMeshesList (base.add p) cs

/-- `getMeshes` over a list of children. -/
def getMeshesList (base : V3) : List SceneNode → List (ℕ × Box3)
  | [] => []
  | c :: cs => getMeshes base c ++ getMeshesList base cs
end

/-! ## `findValidPlacementPosition` -/

/-- `stackTolerance = (this.studHeight || 0.16) * 1.5`: penetrations deeper
than this make a supporting mesh be ignored ("clip through"). -/
def stackTolerance (studHeight : ℚ) : ℚ := jsOr studHeight (16/100) * (3/2)

/-- The strict X/Z overlap test between a dragged part and another placed
mesh: the part box is shrunk by `epsilon = 0.05` on X and Z
(`partMaxX > otherBox.min.x && partMinX < otherBox.max.x`, same for Z). -/
def overlapXZ (pb o : Box3) : Prop :=
  (pb.maxX - 1/20 > o.minX ∧ pb.minX + 1/20 < o.maxX) ∧
  (pb.maxZ - 1/20 > o.minZ ∧ pb.minZ + 1/20 < o.maxZ)

instance (pb o : Box3) : Decidable (overlapXZ pb o) := by
  unfold overlapXZ
  exact inferInstance

/-- The accumulator update `if (c > requiredGroupY) requiredGroupY = c`,
where `none` stands for the initial `-Infinity`. -/
def omax (acc : Option ℚ) (c : ℚ) : Option ℚ :=
  match acc with
  | none => some c
  | some r => if c > r then some c else some r

/-- The inner loop of `findValidPlacementPosition` over `allPlacedMeshes`
for one dragged part `pb` (a world box): a placed mesh is skipped when the
part's bottom is more than `stackTolerance` below its top; otherwise, on an
X/Z overlap, the constraint `otherBox.max.y - studH - partBottomOffset` is
accumulated, with `partBottomOffset = pb.minY - brickPosY`. -/
def partLoop (studHeight brickPosY : ℚ) (pb : Box3) (acc : Option ℚ) :
    List Box3 → Option ℚ
  | [] => acc
  | o :: rest =>
    if pb.minY < o.maxY - stackTolerance studHeight then
      partLoop studHeight brickPosY pb acc rest
    else if overlapXZ pb o then
      partLoop studHeight brickPosY pb
        (omax acc (o.maxY - jsOr studHeight (16/100) - (pb.minY - brickPosY))) rest
    else partLoop studHeight brickPosY pb acc rest

/-- The outer loop of `findValidPlacementPosition` over the dragged parts:
each part first contributes its ground constraint
`-(partBox.min.y - brick.position.y)` and then its stacking constraints. -/
def requiredGroupY (studHeight brickPosY : ℚ) (others : List Box3) :
    Option ℚ → List Box3 → Option ℚ
  | acc, [] => acc
  | acc, pb :: parts =>
    requiredGroupY studHeight brickPosY others
      (partLoop studHeight brickPosY pb (omax acc (-(pb.minY - brickPosY))) others) parts

/-- `allPlacedMeshes`: every leaf mesh of every placed brick other than the
dragged object itself, excluding leaves that belong to the dragged object
(`draggedMeshIDs`). -/
def allPlacedMeshesOf (placedBricks : List SceneNode) (brick : SceneNode) :
    List (ℕ × Box3) :=
  let draggedMeshIDs := (getMeshes V3.zero brick).map Prod.fst
  (placedBricks.filter (fun pb => pb.uuid != brick.uuid)).flatMap
    (fun pb => (getMeshes V3.zero pb).filter (fun m => !(draggedMeshIDs.contains m.1)))

/-- The resolved required group Y of `findValidPlacementPosition`:
the final value of `requiredGroupY` (`none` = `-Infinity`, reached only when
the dragged object has no leaf meshes). -/
def resolvedRequiredY (studHeight : ℚ) (placedBricks : List SceneNode)
    (brick : SceneNode) : Option ℚ :=
  requiredGroupY studHeight brick.pos.y ((allPlacedMeshesOf placedBricks brick).map Prod.snd)
    none (((getMeshes V3.zero brick)).map Prod.snd)

/-- `findValidPlacementPosition(brick)`: the "breakable snap". With
`magneticDist = 0.05`, when the brick's current Y is at or above
`requiredGroupY - magneticDist` the result Y is
`max(brick.position.y, requiredGroupY)` (hard snap/stack); otherwise the
current (intersecting) Y is kept so that continued downward drag can cross
the `stackTolerance` threshold. X and Z are returned unchanged. -/
def findValidPlacementPosition (studHeight : ℚ) (placedBricks : List SceneNode)
    (brick : SceneNode) : V3 :=
  match resolvedRequiredY studHeight placedBricks brick with
  | none => brick.pos
  | some r =>
    if brick.pos.y ≥ r - 1/20 then ⟨brick.pos.x, max brick.pos.y r, brick.pos.z⟩
    else brick.pos

/-- The lowest world Y coordinate over the leaf meshes of `brick` when the
object origin is moved to height `y` (each part keeps its vertical offset
`partBox.min.y - brick.position.y` from the origin); `none` for an object
with no leaf meshes. -/
def lowestPointAt (brick : SceneNode) (y : ℚ) : Option ℚ :=
  (((getMeshes V3.zero brick)).map (fun m => y + (m.2.minY - brick.pos.y))).min?

/-! ## Interaction-manager state, `deleteSelected`, `groupSelected` -/

/-- Change notifications sent to the external UI layer. -/
inductive UIEvent where
  | brickAdded (uuid : ℕ)
  | brickRemoved (uuid : ℕ)
  | selectionChanged (uuids : List ℕ)
deriving DecidableEq

/-- The value of `obj.parent` as inspected by `groupSelected` /
`deleteSelected`: the scene itself, a group (identified by uuid), or `null`
(object not reachable from the scene). -/
inductive JPar where
  | scene
  | group (uuid : ℕ)
  | null
deriving DecidableEq

/-- The mutable state of `InteractionManager` relevant to the hierarchy and
selection operations. `placedBricks` and `selectedObjects` hold object
references in the source; they are modelled by uuids (uuids are unique), in
JS array / `Set` insertion order. -/
structure IMState where
  sceneChildren : List SceneNode
  placedBricks : List ℕ
  selectedObjects : List ℕ

mutual
/-- The parent of the object with uuid `u`: searches the children list `cs`
of the parent `par`, descending into groups; `JPar.null` when `u` does not
occur. -/
def parentIn (par : JPar) (u : ℕ) : List SceneNode → JPar
  | [] => .null
  | c :: cs =>
    if c.uuid = u then par
    else
      match parentInNode u c with
      | .null => parentIn par u cs
      | p => p

/-- Parent search inside one node. -/
def parentInNode (u : ℕ) : SceneNode → JPar
  | .mesh _ _ _ => .null
  | .group g _ children => parentIn (.group g) u children
end

/-- `obj.parent` for the object with uuid `u` in state `s`. -/
def jparOf (s : IMState) (u : ℕ) : JPar := parentIn .scene u s.sceneChildren

mutual
/-- `immediateParentGroup.remove(obj)`: removes the child with uuid `u` from
the children list of the group with uuid `g`, wherever that group lives. -/
def removeFromGroup (g u : ℕ) : List SceneNode → List SceneNode
  | [] => []
  | c :: cs => removeFromGroupNode g u c :: removeFromGroup g u cs

/-- `removeFromGroup` on one node. -/
def removeFromGroupNode (g u : ℕ) : SceneNode → SceneNode
  | .mesh m p b => .mesh m p b
  | .group gu p children =>
    if gu = g then .group gu p (children.filter (fun c => c.uuid != u))
    else .group gu p (removeFromGroup g u children)
end

mutual
/-- The children list of the group with uuid `g` (`none` when no such group
is reachable). -/
def groupChildren (g : ℕ) : List SceneNode → Option (List SceneNode)
  | [] => none
  | c :: cs =>
    match groupChildrenNode g c with
    | some r => some r
    | none => groupChildren g cs

/-- `groupChildren` on one node. -/
def groupChildrenNode (g : ℕ) : SceneNode → Option (List SceneNode)
  | .mesh _ _ _ => none
  | .group gu _ children =>
    if gu = g then some children else groupChildren g children
end

/-- One iteration of the `objectsToRemove.forEach` loop of `deleteSelected`,
threading `(sceneChildren, placedBricks, uuids)`. A child of a group is
removed from that group (and an emptied group is then itself removed from
the scene and `placedBricks`); otherwise `scene.remove(obj)` only removes a
top-level object, and `placedBricks` is filtered. -/
def deleteOneStep (acc : List SceneNode × List ℕ × List ℕ) (u : ℕ) :
    List SceneNode × List ℕ × List ℕ :=
  match parentIn .scene u acc.1 with
  | .group g =>
    let scene1 := removeFromGroup g u acc.1
    match groupChildren g scene1 with
    | some [] =>
      (scene1.filter (fun c => c.uuid != g), acc.2.1.filter (fun p => p != g),
        acc.2.2 ++ [u, g])
    | _ => (scene1, acc.2.1, acc.2.2 ++ [u])
  | _ =>
    (acc.1.filter (fun c => c.uuid != u), acc.2.1.filter (fun p => p != u),
      acc.2.2 ++ [u])

/-- JS `Set` insertion-order deduplication (`[...new Set(uuids)]`). -/
def jsUnique (l : List ℕ) : List ℕ :=
  l.foldl (fun acc x => if acc.contains x then acc else acc ++ [x]) []

/-- Replace a node's position (used for `parent.attach(child)`, which in
this translation-only model sets the child's new local position so that its
world position is preserved). -/
def SceneNode.withPos (n : SceneNode) (p : V3) : SceneNode :=
  match n with
  | .mesh u _ b => .mesh u p b
  | .group u _ cs => .group u p cs

mutual
/-- `cleanupSingleChildGroups`, acting on the children of one parent. The JS
loop walks the children array from the last index to the first, first
recursively cleaning a group child, then — if it is left with exactly one
child — attaching the grandchild to the parent (appended at the end of the
parent's children array, with its local position adjusted by the collapsed
group's position) and removing the group. Returns (children kept in place,
grandchildren appended at the end, updated `placedBricks`, removed group
uuids in emission order). -/
def cleanupChildren (placed : List ℕ) :
    List SceneNode → List SceneNode × List SceneNode × List ℕ × List ℕ
  | [] => ([], [], placed, [])
  | c :: cs =>
    let rest := cleanupChildren placed cs
    let rc := cleanupNode rest.2.2.1 c
    match rc.1 with
    | .group gu gp [gc] =>
      let gcMoved := gc.withPos (gp.add gc.pos)
      let placed3 :=
        if rc.2.1.contains gu then rc.2.1.filter (fun p => p != gu) ++ [gcMoved.uuid]
        else rc.2.1
      (rest.1, rest.2.1 ++ [gcMoved], placed3, rest.2.2.2 ++ rc.2.2 ++ [gu])
    | c1 => (c1 :: rest.1, rest.2.1, rc.2.1, rest.2.2.2 ++ rc.2.2)

/-- `cleanupSingleChildGroups` descent into one node: a group's children are
cleaned and the appended grandchildren land at the end of its children
array. Returns (cleaned node, updated `placedBricks`, removed group uuids). -/
def cleanupNode (placed : List ℕ) : SceneNode → SceneNode × List ℕ × List ℕ
  | .mesh u p b => (.mesh u p b, placed, [])
  | .group u p children =>
    let r := cleanupChildren placed children
    (.group u p (r.1 ++ r.2.1), r.2.2.1, r.2.2.2)
end

/-- `cleanupSingleChildGroups()`: applies the recursive collapse starting at
the scene; returns the updated state and the removed group uuids (each also
reported through `onBrickRemoved` by the caller's embedding). -/
def cleanupSingleChildGroups (s : IMState) : IMState × List ℕ :=
  let r := cleanupChildren s.placedBricks s.sceneChildren
  (⟨r.1 ++ r.2.1, r.2.2.1, s.selectedObjects⟩, r.2.2.2)

/-- `deleteSelected()`: removes every selected object (loop modelled by
`deleteOneStep`), clears the selection, notifies `onBrickRemoved` for each
distinct removed uuid, runs `cleanupSingleChildGroups` (which notifies
`onBrickRemoved` for each collapsed group), and finally publishes
`onSelectionChanged([])`. -/
def deleteSelected (s : IMState) : IMState × List UIEvent :=
  let res := s.selectedObjects.foldl deleteOneStep (s.sceneChildren, s.placedBricks, [])
  let uniqueUuids := jsUnique res.2.2
  let s1 : IMState := ⟨res.1, res.2.1, []⟩
  let cl := cleanupSingleChildGroups s1
  (cl.1,
    uniqueUuids.map UIEvent.brickRemoved ++ cl.2.map UIEvent.brickRemoved ++
      [UIEvent.selectionChanged []])

def V3.sub (a b : V3) : V3 := ⟨a.x - b.x, a.y - b.y, a.z - b.z⟩

/-- `Box3.union`-style accumulator for `box.expandByObject(obj)`; `none` is
the initial empty box. -/
def unionBox (acc : Option Box3) (b : Box3) : Option Box3 :=
  match acc with
  | none => some b
  | some a =>
    some ⟨min a.minX b.minX, min a.minY b.minY, min a.minZ b.minZ,
          max a.maxX b.maxX, max a.maxY b.maxY, max a.maxZ b.maxZ⟩

mutual
/-- Locates the object with uuid `u`, returning the accumulated world
position of its parent chain together with the node itself. -/
def findNodeW (base : V3) (u : ℕ) : List SceneNode → Option (V3 × SceneNode)
  | [] => none
  | c :: cs =>
    if c.uuid = u then some (base, c)
    else
      match findNodeWNode base u c with
      | some r => some r
      | none => findNodeW base u cs

/-- `findNodeW` descent into one node. -/
def findNodeWNode (base : V3) (u : ℕ) : SceneNode → Option (V3 × SceneNode)
  | .mesh _ _ _ => none
  | .group _ p children => findNodeW (base.add p) u children
end

mutual
/-- Removes every node whose uuid is in `us` from the forest (the
re-parenting step of `group.attach(obj)` for each grouped object). -/
def removeUuids (us : List ℕ) : List SceneNode → List SceneNode
  | [] => []
  | c :: cs =>
    if us.contains c.uuid then removeUuids us cs
    else removeUuidsNode us c :: removeUuids us cs

/-- `removeUuids` inside one node. -/
def removeUuidsNode (us : List ℕ) : SceneNode → SceneNode
  | .mesh u p b => .mesh u p b
  | .group g p children => .group g p (removeUuids us children)
end

mutual
/-- `targetParent.add(group)` for a group target: appends `newChild` to the
children list of the group with uuid `g`. -/
def appendChildTo (g : ℕ) (newChild : SceneNode) : List SceneNode → List SceneNode
  | [] => []
  | c :: cs => appendChildToNode g newChild c :: appendChildTo g newChild cs

/-- `appendChildTo` on one node. -/
def appendChildToNode (g : ℕ) (newChild : SceneNode) : SceneNode → SceneNode
  | .mesh u p b => .mesh u p b
  | .group gu p children =>
    if gu = g then .group gu p (children ++ [newChild])
    else .group gu p (appendChildTo g newChild children)
end

/-- The common-parent check loop of `groupSelected`: `commonParent` starts
as the `null` sentinel and is set to the first object's parent; any later
object with a different parent aborts (`none`). -/
def commonParentLoop : JPar → List JPar → Option JPar
  | common, [] => some common
  | common, p :: rest =>
    if common = JPar.null then commonParentLoop p rest
    else if p ≠ common then none
    else commonParentLoop common rest

/-- The world bounding box of the object with uuid `u`
(`box.expandByObject(obj)`): the union of the world boxes of its leaf
meshes; `none` when the object is absent or has no meshes. -/
def worldBoxOf (s : IMState) (u : ℕ) : Option Box3 :=
  match findNodeW V3.zero u s.sceneChildren with
  | none => none
  | some r => ((getMeshes r.1 r.2).map Prod.snd).foldl unionBox none

/-- The world position of a parent reference (`JPar.null` cannot occur for
the target parent of `groupSelected`, and is mapped to the scene origin). -/
def jparWorldPos (s : IMState) : JPar → V3
  | .scene => V3.zero
  | .null => V3.zero
  | .group g =>
    match findNodeW V3.zero g s.sceneChildren with
    | some r => r.1.add r.2.pos
    | none => V3.zero

/-- `groupSelected()`. Aborts (no effect, no events) when fewer than two
objects are selected or when the selected objects do not share one common
parent. Otherwise: creates a `THREE.Group` (fresh uuid `freshUuid`) at the
world-box center of the selection, adds it to the common parent, attaches
every selected object to it (preserving world position), filters the
grouped objects out of `placedBricks` (notifying `onBrickRemoved`), pushes
the group onto `placedBricks` when the target parent is the scene
(notifying `onBrickAdded`), and selects the new group
(`selectObject(group, false)` = `deselectAll()` + additive select, each
publishing `onSelectionChanged`). The degenerate no-mesh selection (NaN
center in JS) is modelled with a zero center. -/
def groupSelected (s : IMState) (freshUuid : ℕ) : IMState × List UIEvent :=
  if s.selectedObjects.length < 2 then (s, []) else
  let objectsToGroup := s.selectedObjects
  match commonParentLoop .null (objectsToGroup.map (jparOf s)) with
  | none => (s, [])
  | some commonParent =>
    let targetParent := if commonParent = JPar.null then JPar.scene else commonParent
    let selBox := objectsToGroup.foldl
      (fun acc u =>
        match worldBoxOf s u with
        | none => acc
        | some b => unionBox acc b) none
    let center : V3 :=
      match selBox with
      | some b => ⟨(b.minX + b.maxX) / 2, (b.minY + b.maxY) / 2, (b.minZ + b.maxZ) / 2⟩
      | none => V3.zero
    let groupWorld := (jparWorldPos s targetParent).add center
    let newChildren := objectsToGroup.filterMap
      (fun u =>
        match findNodeW V3.zero u s.sceneChildren with
        | none => none
        | some r => some (r.2.withPos ((r.1.add r.2.pos).sub groupWorld)))
    let newGroup : SceneNode := .group freshUuid center newChildren
    let scene1 := removeUuids objectsToGroup s.sceneChildren
    let scene2 :=
      match targetParent with
      | .group g => appendChildTo g newGroup scene1
      | _ => scene1 ++ [newGroup]
    let placed1 := objectsToGroup.foldl (fun pl u => pl.filter (fun p => p != u)) s.placedBricks
    let removeEvents := objectsToGroup.map UIEvent.brickRemoved
    let placed2 := if targetParent = JPar.scene then placed1 ++ [freshUuid] else placed1
    let addEvents := if targetParent = JPar.scene then [UIEvent.brickAdded freshUuid] else []
    (⟨scene2, placed2, [freshUuid]⟩,
      removeEvents ++ addEvents ++
        [UIEvent.selectionChanged [], UIEvent.selectionChanged [freshUuid]])

/-- Spec-side formula of claim C2, modelled from the spec's words: the
required resting height of a part's bottom is "the maximum such supporting
height (`otherTop − studHeight`) across all overlaps, plus a ground floor
of 0", taken over the placed leaves whose footprint overlaps the part in
X/Z. -/
def claimedRestingBottom (studHeight : ℚ) (pb : Box3) (others : List Box3) : ℚ :=
  others.foldl (fun acc o => if overlapXZ pb o then max acc (o.maxY - studHeight) else acc) 0

/-! ## Helper lemmas -/

theorem jround_intCast (k : ℤ) : jround (k : ℚ) = k := by
  unfold jround
  rw [add_comm, Int.floor_add_int]
  norm_num

theorem offset_roundtrip (gs sp q : ℚ) (hsp : sp ≠ 0) : (gs + q * sp - gs) / sp = q := by
  rw [add_sub_cancel_left, mul_div_cancel_right₀ _ hsp]

theorem half_offset_ne_stud (gs sp : ℚ) (hsp : sp ≠ 0) (k m : ℤ) :
    gs + ((k : ℚ) + 1/2) * sp ≠ gs + (m : ℚ) * sp := by
  intro h
  have h1 : ((k : ℚ) + 1/2) * sp = (m : ℚ) * sp := add_left_cancel h
  have h2 : (k : ℚ) + 1/2 = (m : ℚ) := mul_right_cancel₀ hsp h1
  have h3 : ((2 * k + 1 : ℤ) : ℚ) = ((2 * m : ℤ) : ℚ) := by push_cast; linarith
  have h4 : (2 * k + 1 : ℤ) = 2 * m := by exact_mod_cast h3
  omega

theorem snapAxis_even (gs sp c : ℚ) :
    snapAxis gs sp c true = gs + ((jround ((c - gs) / sp - 1/2) : ℚ) + 1/2) * sp := rfl

theorem snapAxis_odd (gs sp c : ℚ) :
    snapAxis gs sp c false = gs + (jround ((c - gs) / sp) : ℚ) * sp := rfl

theorem snapAxis_idem (gs sp c : ℚ) (e : Bool) :
    snapAxis gs sp (snapAxis gs sp c e) e = snapAxis gs sp c e := by
  by_cases hsp : sp = 0
  · subst hsp
    cases e <;> simp [snapAxis]
  · cases e
    · rw [snapAxis_odd, snapAxis_odd, offset_roundtrip _ _ _ hsp, jround_intCast]
    · rw [snapAxis_even, snapAxis_even, offset_roundtrip _ _ _ hsp,
        add_sub_cancel_right, jround_intCast]

/-! ## Claim C4 -/

/-- C4: `snapToStudGrid` snaps each axis by stud-count parity. An axis whose
footprint spans an even number of studs (`Math.round(size / spacing)` even)
lands exactly midway between two studs — offset by `spacing/2` from every
stud position — while an axis spanning an odd number of studs lands exactly
on a stud position `gridStart + k * spacing`. -/
theorem snapToStudGrid_parity_C4 (g : GridCfg) (x z sx sz : ℚ)
    (hsp : 0 < g.studSpacing) :
    ((jround (sx / g.studSpacing) % 2 = 0 →
        (∃ k : ℤ, (snapToStudGrid g x z (some (sx, sz))).1
            = g.gridStartX + ((k : ℚ) + 1/2) * g.studSpacing) ∧
          ∀ m : ℤ, (snapToStudGrid g x z (some (sx, sz))).1
            ≠ g.gridStartX + (m : ℚ) * g.studSpacing) ∧
      (jround (sx / g.studSpacing) % 2 ≠ 0 →
        ∃ k : ℤ, (snapToStudGrid g x z (some (sx, sz))).1
          = g.gridStartX + (k : ℚ) * g.studSpacing)) ∧
    ((jround (sz / g.studSpacing) % 2 = 0 →
        (∃ k : ℤ, (snapToStudGrid g x z (some (sx, sz))).2
            = g.gridStartZ + ((k : ℚ) + 1/2) * g.studSpacing) ∧
          ∀ m : ℤ, (snapToStudGrid g x z (some (sx, sz))).2
            ≠ g.gridStartZ + (m : ℚ) * g.studSpacing) ∧
      (jround (sz / g.studSpacing) % 2 ≠ 0 →
        ∃ k : ℤ, (snapToStudGrid g x z (some (sx, sz))).2
          = g.gridStartZ + (k : ℚ) * g.studSpacing)) := by
  have hne : g.studSpacing ≠ 0 := ne_of_gt hsp
  refine ⟨⟨fun h => ?_, fun h => ?_⟩, ⟨fun h => ?_, fun h => ?_⟩⟩
  · have hv : (snapToStudGrid g x z (some (sx, sz))).1
        = g.gridStartX + ((jround ((x - g.gridStartX) / g.studSpacing - 1/2) : ℚ) + 1/2)
            * g.studSpacing := by
      simp [snapToStudGrid, evenStuds, h, snapAxis_even]
    exact ⟨⟨_, hv⟩, fun m => hv ▸ half_offset_ne_stud _ _ hne _ m⟩
  · have hb : (jround (sx / g.studSpacing) % 2 == 0) = false := beq_eq_false_iff_ne.mpr h
    have hv : (snapToStudGrid g x z (some (sx, sz))).1
        = g.gridStartX + (jround ((x - g.gridStartX) / g.studSpacing) : ℚ) * g.studSpacing := by
      simp [snapToStudGrid, evenStuds, hb, snapAxis_odd]
    exact ⟨_, hv⟩
  · have hv : (snapToStudGrid g x z (some (sx, sz))).2
        = g.gridStartZ + ((jround ((z - g.gridStartZ) / g.studSpacing - 1/2) : ℚ) + 1/2)
            * g.studSpacing := by
      simp [snapToStudGrid, evenStuds, h, snapAxis_even]
    exact ⟨⟨_, hv⟩, fun m => hv ▸ half_offset_ne_stud _ _ hne _ m⟩
  · have hb : (jround (sz / g.studSpacing) % 2 == 0) = false := beq_eq_false_iff_ne.mpr h
    have hv : (snapToStudGrid g x z (some (sx, sz))).2
        = g.gridStartZ + (jround ((z - g.gridStartZ) / g.studSpacing) : ℚ) * g.studSpacing := by
      simp [snapToStudGrid, evenStuds, hb, snapAxis_odd]
    exact ⟨_, hv⟩

/-- Witness for C4 at the default grid (`spacing = 0.8`) with a 2-stud-wide
(even, `size.x = 1.6`) by 3-stud-deep (odd, `size.z = 2.4`) footprint. -/
theorem snapToStudGrid_parity_C4_witness :
    (∃ k : ℤ, (snapToStudGrid (setStudGrid (4/5) (4/25) 0 0 (96/100)) (1/3) (1/7)
        (some (8/5, 12/5))).1 = 0 + ((k : ℚ) + 1/2) * (4/5)) ∧
    (∃ k : ℤ, (snapToStudGrid (setStudGrid (4/5) (4/25) 0 0 (96/100)) (1/3) (1/7)
        (some (8/5, 12/5))).2 = 0 + (k : ℚ) * (4/5)) := by
  have h := snapToStudGrid_parity_C4 (setStudGrid (4/5) (4/25) 0 0 (96/100))
    (1/3) (1/7) (8/5) (12/5) (by norm_num [setStudGrid])
  exact ⟨(h.1.1 (by norm_num [setStudGrid, jround])).1,
    h.2.2 (by norm_num [setStudGrid, jround])⟩

/-! ## Claim C5 -/

/-- C5: `snapToStudGrid` is idempotent — re-snapping its own output with the
same footprint returns the same output. -/
theorem snapToStudGrid_idem_C5 (g : GridCfg) (x z : ℚ) (bs : Option (ℚ × ℚ)) :
    snapToStudGrid g (snapToStudGrid g x z bs).1 (snapToStudGrid g x z bs).2 bs
      = snapToStudGrid g x z bs := by
  cases bs with
  | none => exact Prod.ext (snapAxis_idem _ _ _ _) (snapAxis_idem _ _ _ _)
  | some s => exact Prod.ext (snapAxis_idem _ _ _ _) (snapAxis_idem _ _ _ _)

/-! ## Claim C10 -/

/-- C10: with a `null`/omitted mesh both axes default to an even stud count,
so the snapped position lies midway between studs (offset `spacing/2` from
every stud position) on both X and Z. -/
theorem snapToStudGrid_null_default_C10 (g : GridCfg) (x z : ℚ)
    (hsp : 0 < g.studSpacing) :
    ((∃ k : ℤ, (snapToStudGrid g x z none).1
        = g.gridStartX + ((k : ℚ) + 1/2) * g.studSpacing) ∧
      ∀ m : ℤ, (snapToStudGrid g x z none).1 ≠ g.gridStartX + (m : ℚ) * g.studSpacing) ∧
    ((∃ k : ℤ, (snapToStudGrid g x z none).2
        = g.gridStartZ + ((k : ℚ) + 1/2) * g.studSpacing) ∧
      ∀ m : ℤ, (snapToStudGrid g x z none).2 ≠ g.gridStartZ + (m : ℚ) * g.studSpacing) := by
  have hne : g.studSpacing ≠ 0 := ne_of_gt hsp
  have hvx : (snapToStudGrid g x z none).1
      = g.gridStartX + ((jround ((x - g.gridStartX) / g.studSpacing - 1/2) : ℚ) + 1/2)
          * g.studSpacing := by
    simp [snapToStudGrid, snapAxis_even]
  have hvz : (snapToStudGrid g x z none).2
      = g.gridStartZ + ((jround ((z - g.gridStartZ) / g.studSpacing - 1/2) : ℚ) + 1/2)
          * g.studSpacing := by
    simp [snapToStudGrid, snapAxis_even]
  exact ⟨⟨⟨_, hvx⟩, fun m => hvx ▸ half_offset_ne_stud _ _ hne _ m⟩,
    ⟨⟨_, hvz⟩, fun m => hvz ▸ half_offset_ne_stud _ _ hne _ m⟩⟩

/-- Witness for C10 at the default grid with no mesh. -/
theorem snapToStudGrid_null_default_C10_witness :
    ∃ k : ℤ, (snapToStudGrid (setStudGrid (4/5) (4/25) 0 0 (96/100)) (1/3) (1/7) none).1
      = 0 + ((k : ℚ) + 1/2) * (4/5) := by
  exact (snapToStudGrid_null_default_C10 (setStudGrid (4/5) (4/25) 0 0 (96/100)) (1/3) (1/7)
    (by norm_num [setStudGrid])).1.1

/-! ## Claim C8 -/

/-- C8: during a Y-axis gizmo drag, each selected object's new Y coordinate
is a (natural) multiple of the vertical grid step
`brickBodyHeight - studHeight` configured by `setStudGrid`, and is clamped
so it is never negative. -/
theorem gizmoDragY_C8 (studSpacing studHeight startX startZ brickHeight
    verticalDragFactor origY mouseDeltaY : ℚ)
    (hgrid : 0 < brickHeight - studHeight) :
    0 ≤ gizmoDragNewY (setStudGrid studSpacing studHeight startX startZ brickHeight)
        verticalDragFactor origY mouseDeltaY ∧
    ∃ k : ℕ, gizmoDragNewY (setStudGrid studSpacing studHeight startX startZ brickHeight)
        verticalDragFactor origY mouseDeltaY = (k : ℚ) * (brickHeight - studHeight) := by
  have hvgs : (setStudGrid studSpacing studHeight startX startZ brickHeight).verticalGridSize
      = brickHeight - studHeight := rfl
  simp only [gizmoDragNewY, hvgs, if_pos hgrid]
  set n : ℤ := jround ((origY + mouseDeltaY * verticalDragFactor) / (brickHeight - studHeight))
    with hn
  by_cases hneg : (n : ℚ) * (brickHeight - studHeight) < 0
  · rw [if_pos hneg]
    exact ⟨le_refl 0, 0, by simp⟩
  · rw [if_neg hneg]
    push_neg at hneg
    refine ⟨hneg, n.toNat, ?_⟩
    have hnn : (0 : ℤ) ≤ n := by
      have := (mul_nonneg_iff_of_pos_right hgrid).mp hneg
      exact_mod_cast this
    have hcast : ((n.toNat : ℚ)) = (n : ℚ) := by exact_mod_cast Int.toNat_of_nonneg hnn
    rw [hcast]

/-- Witness for C8 at the default grid (`brickHeight = 0.96`,
`studHeight = 0.16`, vertical step `0.8`). -/
theorem gizmoDragY_C8_witness :
    0 ≤ gizmoDragNewY (setStudGrid (4/5) (4/25) 0 0 (96/100)) 1 (2/5) (1/10) ∧
    ∃ k : ℕ, gizmoDragNewY (setStudGrid (4/5) (4/25) 0 0 (96/100)) 1 (2/5) (1/10)
      = (k : ℚ) * (96/100 - 4/25) := by
  exact gizmoDragY_C8 (4/5) (4/25) 0 0 (96/100) 1 (2/5) (1/10) (by norm_num)

/-! ## Claim C9 -/

/-- C9: `checkBoxOverlap` returns `true` only if, after shrinking both boxes
by `epsilon = 0.01`, the intersection has positive extent on all three axes;
and whenever the two boxes merely touch without interpenetrating (their raw
intersection has non-positive extent on some axis), it returns `false`. -/
theorem checkBoxOverlap_C9 (b1 b2 : Box3) :
    (checkBoxOverlap b1 b2 = true →
      0 < getSizeX (boxIntersect (expandByScalar b1 (-(1/100))) (expandByScalar b2 (-(1/100)))) ∧
      0 < getSizeY (boxIntersect (expandByScalar b1 (-(1/100))) (expandByScalar b2 (-(1/100)))) ∧
      0 < getSizeZ (boxIntersect (expandByScalar b1 (-(1/100))) (expandByScalar b2 (-(1/100))))) ∧
    ((min b1.maxX b2.maxX ≤ max b1.minX b2.minX ∨
      min b1.maxY b2.maxY ≤ max b1.minY b2.minY ∨
      min b1.maxZ b2.maxZ ≤ max b1.minZ b2.minZ) →
      checkBoxOverlap b1 b2 = false) := by
  constructor
  · intro h
    by_cases he : boxIsEmpty
        (boxIntersect (expandByScalar b1 (-(1/100))) (expandByScalar b2 (-(1/100))))
    · rw [checkBoxOverlap, if_pos he] at h
      exact absurd h (by simp)
    · rw [checkBoxOverlap, if_neg he] at h
      simp only [Bool.and_eq_true, decide_eq_true_eq] at h
      refine ⟨lt_trans (by norm_num) h.1.1, lt_trans (by norm_num) h.1.2,
        lt_trans (by norm_num) h.2⟩
  · intro h
    have he : boxIsEmpty
        (boxIntersect (expandByScalar b1 (-(1/100))) (expandByScalar b2 (-(1/100)))) := by
      rcases h with h | h | h
      · exact Or.inl (by
          simp only [boxIntersect, expandByScalar]
          rw [show b1.maxX + -(1/100) = b1.maxX - 1/100 by ring,
            show b2.maxX + -(1/100) = b2.maxX - 1/100 by ring,
            show b1.minX - -(1/100) = b1.minX + 1/100 by ring,
            show b2.minX - -(1/100) = b2.minX + 1/100 by ring,
            min_sub_sub_right, max_add_add_right]
          linarith)
      · refine Or.inr (Or.inl ?_)
        simp only [boxIntersect, expandByScalar]
        rw [show b1.maxY + -(1/100) = b1.maxY - 1/100 by ring,
          show b2.maxY + -(1/100) = b2.maxY - 1/100 by ring,
          show b1.minY - -(1/100) = b1.minY + 1/100 by ring,
          show b2.minY - -(1/100) = b2.minY + 1/100 by ring,
          min_sub_sub_right, max_add_add_right]
        linarith
      · refine Or.inr (Or.inr ?_)
        simp only [boxIntersect, expandByScalar]
        rw [show b1.maxZ + -(1/100) = b1.maxZ - 1/100 by ring,
          show b2.maxZ + -(1/100) = b2.maxZ - 1/100 by ring,
          show b1.minZ - -(1/100) = b1.minZ + 1/100 by ring,
          show b2.minZ - -(1/100) = b2.minZ + 1/100 by ring,
          min_sub_sub_right, max_add_add_right]
        linarith
    rw [checkBoxOverlap, if_pos he]

/-- Witness for C9: a genuinely interpenetrating pair (positive shrunk
extents) and a face-touching pair (reported as no overlap). -/
theorem checkBoxOverlap_C9_witness :
    (0 < getSizeX (boxIntersect (expandByScalar ⟨0, 0, 0, 1, 1, 1⟩ (-(1/100)))
        (expandByScalar ⟨1/2, 1/2, 1/2, 2, 2, 2⟩ (-(1/100)))) ∧
      0 < getSizeY (boxIntersect (expandByScalar ⟨0, 0, 0, 1, 1, 1⟩ (-(1/100)))
        (expandByScalar ⟨1/2, 1/2, 1/2, 2, 2, 2⟩ (-(1/100)))) ∧
      0 < getSizeZ (boxIntersect (expandByScalar ⟨0, 0, 0, 1, 1, 1⟩ (-(1/100)))
        (expandByScalar ⟨1/2, 1/2, 1/2, 2, 2, 2⟩ (-(1/100))))) ∧
    checkBoxOverlap ⟨0, 0, 0, 1, 1, 1⟩ ⟨1, 0, 0, 2, 1, 1⟩ = false := by
  refine ⟨(checkBoxOverlap_C9 ⟨0, 0, 0, 1, 1, 1⟩ ⟨1/2, 1/2, 1/2, 2, 2, 2⟩).1 ?_,
    (checkBoxOverlap_C9 ⟨0, 0, 0, 1, 1, 1⟩ ⟨1, 0, 0, 2, 1, 1⟩).2 ?_⟩
  · norm_num [checkBoxOverlap, boxIntersect, expandByScalar, boxIsEmpty,
      getSizeX, getSizeY, getSizeZ, min_def, max_def]
  · norm_num

/-! ## Lemmas about the `requiredGroupY` folds -/

theorem jsOr_of_ne (a b : ℚ) (h : a ≠ 0) : jsOr a b = a := if_neg h

/-- `a` is a realised lower bound of an accumulator (`none` = `-Infinity`
has no realised bounds). -/
def leOpt (a : ℚ) : Option ℚ → Prop
  | none => False
  | some r => a ≤ r

theorem leOpt_omax_of_le {a c : ℚ} (acc : Option ℚ) (h : a ≤ c) : leOpt a (omax acc c) := by
  cases acc with
  | none => exact h
  | some r =>
    simp only [omax]
    by_cases hcr : c > r
    · rw [if_pos hcr]; exact h
    · rw [if_neg hcr]; exact le_trans h (not_lt.mp hcr)

theorem leOpt_omax_mono {a : ℚ} {acc : Option ℚ} (c : ℚ) (h : leOpt a acc) :
    leOpt a (omax acc c) := by
  cases acc with
  | none => exact h.elim
  | some r =>
    simp only [omax]
    by_cases hcr : c > r
    · rw [if_pos hcr]; exact le_trans h (le_of_lt hcr)
    · rw [if_neg hcr]; exact h

theorem omax_some_eq (a c : ℚ) : omax (some a) c = some (max a c) := by
  simp only [omax]
  rcases le_or_lt c a with h | h
  · rw [if_neg (not_lt.mpr h), max_eq_left h]
  · rw [if_pos h, max_eq_right h.le]

theorem partLoop_mono (sh pby : ℚ) (pb : Box3) (a : ℚ) (others : List Box3) :
    ∀ acc : Option ℚ, leOpt a acc → leOpt a (partLoop sh pby pb acc others) := by
  induction others with
  | nil => intro acc h; exact h
  | cons o rest ih =>
    intro acc h
    unfold partLoop
    split_ifs with h1 h2
    · exact ih acc h
    · exact ih _ (leOpt_omax_mono _ h)
    · exact ih acc h

theorem requiredGroupY_mono (sh pby : ℚ) (others : List Box3) (a : ℚ) (parts : List Box3) :
    ∀ acc : Option ℚ, leOpt a acc → leOpt a (requiredGroupY sh pby others acc parts) := by
  induction parts with
  | nil => intro acc h; exact h
  | cons pb parts ih =>
    intro acc h
    unfold requiredGroupY
    exact ih _ (partLoop_mono sh pby pb a others _ (leOpt_omax_mono _ h))

/-- Every part's ground constraint is a realised lower bound of the final
`requiredGroupY`. -/
theorem requiredGroupY_ground (sh pby : ℚ) (others : List Box3) (pb : Box3) :
    ∀ parts : List Box3, pb ∈ parts → ∀ acc : Option ℚ,
      leOpt (-(pb.minY - pby)) (requiredGroupY sh pby others acc parts) := by
  intro parts
  induction parts with
  | nil => intro h; cases h
  | cons q parts ih =>
    intro hmem acc
    unfold requiredGroupY
    rcases List.mem_cons.mp hmem with heq | htail
    · subst heq
      exact requiredGroupY_mono sh pby others _ parts _
        (partLoop_mono sh pby pb _ others _ (leOpt_omax_of_le _ (le_refl _)))
    · exact ih htail _

/-- A placed mesh whose top is more than `stackTolerance` above the part's
bottom is skipped by the inner loop. -/
theorem partLoop_skip (sh pby : ℚ) (pb o : Box3) (l2 : List Box3)
    (h : pb.minY < o.maxY - stackTolerance sh) :
    ∀ (l1 : List Box3) (acc : Option ℚ),
      partLoop sh pby pb acc (l1 ++ o :: l2) = partLoop sh pby pb acc (l1 ++ l2) := by
  intro l1
  induction l1 with
  | nil =>
    intro acc
    simp only [List.nil_append, partLoop]
    rw [if_pos h]
  | cons c l1 ih =>
    intro acc
    simp only [List.cons_append, partLoop]
    split_ifs with h1 h2
    · exact ih acc
    · exact ih _
    · exact ih acc

/-- A placed mesh whose top is more than `stackTolerance` above the bottom
of every dragged part contributes nothing to `requiredGroupY`. -/
theorem requiredGroupY_skip (sh pby : ℚ) (l1 l2 : List Box3) (o : Box3) :
    ∀ parts : List Box3, (∀ pb ∈ parts, pb.minY < o.maxY - stackTolerance sh) →
      ∀ acc : Option ℚ,
        requiredGroupY sh pby (l1 ++ o :: l2) acc parts
          = requiredGroupY sh pby (l1 ++ l2) acc parts := by
  intro parts
  induction parts with
  | nil => intro _ acc; rfl
  | cons pb parts ih =>
    intro h acc
    simp only [requiredGroupY]
    rw [partLoop_skip sh pby pb o l2 (h pb (List.mem_cons_self _ _)) l1 _]
    exact ih (fun q hq => h q (List.mem_cons_of_mem _ hq)) _

/-- When no eligible overlap is filtered out by `stackTolerance`, the inner
loop computes exactly the fold of interlock constraints over the overlapped
meshes. -/
theorem partLoop_eval (sh pby : ℚ) (pb : Box3) :
    ∀ others : List Box3,
      (∀ o ∈ others, overlapXZ pb o → o.maxY - stackTolerance sh ≤ pb.minY) →
      ∀ a : ℚ,
        partLoop sh pby pb (some a) others
          = some (others.foldl (fun acc o => if overlapXZ pb o then
              max acc (o.maxY - jsOr sh (16/100) - (pb.minY - pby)) else acc) a) := by
  intro others
  induction others with
  | nil => intro _ a; rfl
  | cons o rest ih =>
    intro h a
    simp only [partLoop, List.foldl_cons]
    by_cases hov : overlapXZ pb o
    · have hskip : ¬ pb.minY < o.maxY - stackTolerance sh :=
        not_lt.mpr (h o (List.mem_cons_self _ _) hov)
      simp only [if_neg hskip, if_pos hov, omax_some_eq]
      exact ih (fun q hq hc => h q (List.mem_cons_of_mem _ hq) hc) _
    · simp only [if_neg hov, ite_self]
      exact ih (fun q hq hc => h q (List.mem_cons_of_mem _ hq) hc) a

/-- Shifting the interlock fold by the part-bottom offset turns it into the
spec-side fold over supporting heights. -/
theorem foldl_stack_shift (sh pby : ℚ) (pb : Box3) :
    ∀ (l : List Box3) (a : ℚ),
      l.foldl (fun acc o => if overlapXZ pb o then
          max acc (o.maxY - jsOr sh (16/100) - (pb.minY - pby)) else acc) a
        + (pb.minY - pby)
      = l.foldl (fun acc o => if overlapXZ pb o then
          max acc (o.maxY - jsOr sh (16/100)) else acc) (a + (pb.minY - pby)) := by
  intro l
  induction l with
  | nil => intro a; rfl
  | cons o rest ih =>
    intro a
    simp only [List.foldl_cons]
    by_cases hov : overlapXZ pb o
    · simp only [if_pos hov]
      rw [ih]
      congr 1
      rw [← max_add_add_right]
      congr 1
      ring
    · simp only [if_neg hov]
      exact ih a

/-! ## Claim C1 -/

/-- C1: the two-threshold "breakable snap" policy. (1) For a configured
(non-zero) stud height, `stackTolerance = 1.5 × studHeight`. (2) When the
object's current Y is more than `magneticDist = 0.05` below the resolved
required height, `findValidPlacementPosition` returns the current position
unchanged — the object is not forced back up. (3) A placed mesh whose top
exceeds a part's bottom by more than `stackTolerance` is skipped for that
part; if that holds for every dragged part, the mesh contributes no
stacking constraint at all (`requiredGroupY` is as if the mesh were
absent), so continued downward drag falls through to the next surface below
or the ground. -/
theorem findValid_clip_through_C1 :
    (∀ sh : ℚ, sh ≠ 0 → stackTolerance sh = 3/2 * sh) ∧
    (∀ (sh : ℚ) (placed : List SceneNode) (brick : SceneNode) (r : ℚ),
      resolvedRequiredY sh placed brick = some r →
      brick.pos.y < r - 1/20 →
      findValidPlacementPosition sh placed brick = brick.pos) ∧
    (∀ (sh pby : ℚ) (parts l1 l2 : List Box3) (o : Box3) (acc : Option ℚ),
      (∀ pb ∈ parts, pb.minY < o.maxY - stackTolerance sh) →
      requiredGroupY sh pby (l1 ++ o :: l2) acc parts
        = requiredGroupY sh pby (l1 ++ l2) acc parts) := by
  refine ⟨fun sh hsh => ?_, fun sh placed brick r hreq hlt => ?_, ?_⟩
  · unfold stackTolerance jsOr
    rw [if_neg hsh]
    ring
  · unfold findValidPlacementPosition
    rw [hreq]
    exact if_neg (not_le.mpr hlt)
  · intro sh pby parts l1 l2 o acc h
    exact requiredGroupY_skip sh pby l1 l2 o parts h acc

/-- The object-local bounding box of a standard 2×2 brick: 1.6 × 0.96 × 1.6
with the origin at the bottom center. -/
def brick2x2Box : Box3 := ⟨-(4/5), 0, -(4/5), 4/5, 96/100, 4/5⟩

/-- C1 witness scene, placed brick: a 2×2 brick resting on the ground. -/
def c1Base : SceneNode := .mesh 11 ⟨0, 0, 0⟩ brick2x2Box

/-- C1 witness scene, dragged brick: the same footprint dragged down to
`y = 0.73`, inside the base brick but above the clip-through threshold, and
more than `magneticDist` below the resolved height `0.8`. -/
def c1Clip : SceneNode := .mesh 12 ⟨0, 73/100, 0⟩ brick2x2Box

/-- Witness for C1: the tolerance identity at `studHeight = 0.16`, the
push-through branch on a concrete clipping state, and the disappearance of
a deeply-penetrated mesh from `requiredGroupY`. -/
theorem findValid_clip_through_C1_witness :
    stackTolerance (4/25) = 3/2 * (4/25) ∧
    findValidPlacementPosition (4/25) [c1Base] c1Clip = c1Clip.pos ∧
    requiredGroupY (4/25) 0 [⟨-1, 0, -1, 1, 1, 1⟩] none [⟨-1, 0, -1, 1, 1/2, 1⟩]
      = requiredGroupY (4/25) 0 [] none [⟨-1, 0, -1, 1, 1/2, 1⟩] := by
  refine ⟨findValid_clip_through_C1.1 (4/25) (by norm_num), ?_, ?_⟩
  · apply findValid_clip_through_C1.2.1 (4/25) [c1Base] c1Clip (4/5)
    · norm_num [resolvedRequiredY, allPlacedMeshesOf, getMeshes, getMeshesList,
        requiredGroupY, partLoop, omax, overlapXZ, stackTolerance, jsOr, translateBox,
        V3.add, V3.zero, SceneNode.pos, SceneNode.uuid, c1Base, c1Clip, brick2x2Box]
    · norm_num [c1Clip, SceneNode.pos]
  · exact findValid_clip_through_C1.2.2 (4/25) 0 [⟨-1, 0, -1, 1, 1/2, 1⟩] [] []
      ⟨-1, 0, -1, 1, 1, 1⟩ none (by
        intro pb hpb
        rw [List.mem_singleton] at hpb
        subst hpb
        norm_num [stackTolerance, jsOr])

/-! ## Claim C3 -/

/-- C3 counterexample scene: a single 2×2 brick whose current position is
0.1 below the ground. -/
def c3Below : SceneNode := .mesh 1 ⟨0, -(1/10), 0⟩ brick2x2Box

/-- C3 as stated is false: with the brick dragged `0.1` below the ground
(more than `magneticDist = 0.05` below the resolved required height `0`),
`findValidPlacementPosition` keeps the current Y and the returned placement
has its lowest point at `-0.1 < 0`. -/
theorem findValid_ground_C3_cex :
    lowestPointAt c3Below (findValidPlacementPosition (4/25) [] c3Below).y
      = some (-(1/10)) ∧ (-(1/10) : ℚ) < 0 := by
  refine ⟨?_, by norm_num⟩
  norm_num [lowestPointAt, findValidPlacementPosition, resolvedRequiredY,
    allPlacedMeshesOf, getMeshes, getMeshesList, requiredGroupY, partLoop, omax,
    c3Below, brick2x2Box, translateBox, V3.add, V3.zero, SceneNode.pos,
    SceneNode.uuid, List.min?]

/-- C3 amended: whenever the hard-snap branch applies — the object's current
Y is within `magneticDist = 0.05` of, or above, the resolved required height
— the returned placement puts no leaf mesh below the ground plane `Y = 0`.
(When the current Y is more than `magneticDist` below the required height
the current, possibly below-ground, Y is returned unchanged.) -/
theorem findValid_ground_C3_amended (sh : ℚ) (placed : List SceneNode)
    (brick : SceneNode) (r : ℚ)
    (hreq : resolvedRequiredY sh placed brick = some r)
    (hband : brick.pos.y ≥ r - 1/20) :
    ∀ q : ℚ, lowestPointAt brick (findValidPlacementPosition sh placed brick).y = some q →
      0 ≤ q := by
  intro q hq
  have hy : (findValidPlacementPosition sh placed brick).y = max brick.pos.y r := by
    unfold findValidPlacementPosition
    rw [hreq]
    show (if brick.pos.y ≥ r - 1/20 then
        (⟨brick.pos.x, max brick.pos.y r, brick.pos.z⟩ : V3) else brick.pos).y
      = max brick.pos.y r
    rw [if_pos hband]
  rw [hy] at hq
  unfold lowestPointAt at hq
  have hmem := List.min?_mem (fun a b => min_choice a b) hq
  obtain ⟨m, hm, hqm⟩ := List.mem_map.mp hmem
  have hle : leOpt (-(m.2.minY - brick.pos.y)) (resolvedRequiredY sh placed brick) := by
    unfold resolvedRequiredY
    exact requiredGroupY_ground sh brick.pos.y _ m.2 _
      (List.mem_map_of_mem Prod.snd hm) none
  rw [hreq] at hle
  have hler : -(m.2.minY - brick.pos.y) ≤ r := hle
  have hmax : r ≤ max brick.pos.y r := le_max_right _ _
  subst hqm
  linarith

/-- C3 witness scene: the same 2×2 brick exactly on the ground. -/
def c3Ground : SceneNode := .mesh 3 ⟨0, 0, 0⟩ brick2x2Box

/-- Witness for the amended C3 at a brick resting on the ground. -/
theorem findValid_ground_C3_witness :
    0 ≤ (0 : ℚ) ∧ lowestPointAt c3Ground (findValidPlacementPosition (4/25) [] c3Ground).y
      = some 0 := by
  have hq : lowestPointAt c3Ground (findValidPlacementPosition (4/25) [] c3Ground).y
      = some 0 := by
    norm_num [lowestPointAt, findValidPlacementPosition, resolvedRequiredY,
      allPlacedMeshesOf, getMeshes, getMeshesList, requiredGroupY, partLoop, omax,
      c3Ground, brick2x2Box, translateBox, V3.add, V3.zero, SceneNode.pos,
      SceneNode.uuid, List.min?]
  exact ⟨findValid_ground_C3_amended (4/25) [] c3Ground 0
    (by norm_num [resolvedRequiredY, allPlacedMeshesOf, getMeshes, getMeshesList,
      requiredGroupY, partLoop, omax, c3Ground, brick2x2Box, translateBox,
      V3.add, V3.zero, SceneNode.pos, SceneNode.uuid])
    (by norm_num [c3Ground, SceneNode.pos]) 0 hq, hq⟩

/-! ## Claim C2 -/

/-- For a single-mesh object, `resolvedRequiredY` is exactly the fold of
interlock constraints over the placed leaves, provided none of them is
filtered out by the `stackTolerance` clip-through rule. -/
theorem resolvedRequiredY_single (sh : ℚ) (placed : List SceneNode) (u : ℕ)
    (p : V3) (lb : Box3)
    (hnoskip : ∀ o ∈ (allPlacedMeshesOf placed (.mesh u p lb)).map Prod.snd,
      overlapXZ (translateBox (V3.zero.add p) lb) o →
      o.maxY - stackTolerance sh ≤ (translateBox (V3.zero.add p) lb).minY) :
    resolvedRequiredY sh placed (.mesh u p lb)
      = some (((allPlacedMeshesOf placed (.mesh u p lb)).map Prod.snd).foldl
          (fun acc o => if overlapXZ (translateBox (V3.zero.add p) lb) o then
            max acc (o.maxY - jsOr sh (16/100)
              - ((translateBox (V3.zero.add p) lb).minY - p.y)) else acc)
          (-((translateBox (V3.zero.add p) lb).minY - p.y))) := by
  unfold resolvedRequiredY
  show requiredGroupY sh p.y ((allPlacedMeshesOf placed (.mesh u p lb)).map Prod.snd) none
      [translateBox (V3.zero.add p) lb] = _
  simp only [requiredGroupY, omax]
  exact partLoop_eval sh p.y _ _ hnoskip _

/-- C2 amended: for a single-mesh object whose footprint overlaps placed
leaves in X/Z, **when the current Y lies in the magnetic band
`[resolved − 0.05, resolved]`, the stud height is configured (non-zero) and
no overlapped leaf is discarded by the `stackTolerance` clip-through rule**,
the resting Y returned by `findValidPlacementPosition` puts the part's
bottom at the maximum over all overlapped leaves of
`leafTop − studHeight`, floored at ground level 0
(`claimedRestingBottom`). -/
theorem findValid_interlock_C2_amended (sh : ℚ) (placed : List SceneNode)
    (u : ℕ) (p : V3) (lb : Box3) (r : ℚ) (hsh : sh ≠ 0)
    (hnoskip : ∀ o ∈ (allPlacedMeshesOf placed (.mesh u p lb)).map Prod.snd,
      overlapXZ (translateBox (V3.zero.add p) lb) o →
      o.maxY - stackTolerance sh ≤ (translateBox (V3.zero.add p) lb).minY)
    (hreq : resolvedRequiredY sh placed (.mesh u p lb) = some r)
    (hlow : p.y ≥ r - 1/20) (hhigh : p.y ≤ r) :
    (findValidPlacementPosition sh placed (.mesh u p lb)).y
        + ((translateBox (V3.zero.add p) lb).minY - p.y)
      = claimedRestingBottom sh (translateBox (V3.zero.add p) lb)
          ((allPlacedMeshesOf placed (.mesh u p lb)).map Prod.snd) := by
  have hr : (((allPlacedMeshesOf placed (.mesh u p lb)).map Prod.snd).foldl
      (fun acc o => if overlapXZ (translateBox (V3.zero.add p) lb) o then
        max acc (o.maxY - jsOr sh (16/100)
          - ((translateBox (V3.zero.add p) lb).minY - p.y)) else acc)
      (-((translateBox (V3.zero.add p) lb).minY - p.y))) = r :=
    Option.some.inj ((resolvedRequiredY_single sh placed u p lb hnoskip).symm.trans hreq)
  have hy : (findValidPlacementPosition sh placed (.mesh u p lb)).y = max p.y r := by
    unfold findValidPlacementPosition
    rw [hreq]
    show (if (SceneNode.mesh u p lb).pos.y ≥ r - 1/20 then
        (⟨(SceneNode.mesh u p lb).pos.x, max (SceneNode.mesh u p lb).pos.y r,
          (SceneNode.mesh u p lb).pos.z⟩ : V3) else (SceneNode.mesh u p lb).pos).y
      = max p.y r
    simp only [SceneNode.pos]
    rw [if_pos hlow]
  rw [hy, max_eq_right hhigh, ← hr, foldl_stack_shift, neg_add_cancel]
  unfold claimedRestingBottom
  simp only [jsOr_of_ne sh (16/100) hsh]

/-- C2 counterexample scene, placed brick: a 2×2 brick on the ground. -/
def c2Base : SceneNode := .mesh 21 ⟨0, 0, 0⟩ brick2x2Box

/-- C2 counterexample scene, dragged brick: the same footprint held at
`y = 5`, far above the base brick. -/
def c2Hover : SceneNode := .mesh 22 ⟨0, 5, 0⟩ brick2x2Box

/-- C2 as stated is false: the hovering brick's footprint overlaps the placed
leaf in X/Z and its current Y (5) is above `resolved − magneticDist`
(`0.8 − 0.05`), yet the returned resting bottom is the current 5, not the
claimed `max(0, leafTop − studHeight) = 0.8`. -/
theorem findValid_interlock_C2_cex :
    overlapXZ (translateBox (V3.zero.add ⟨0, 5, 0⟩) brick2x2Box)
      (translateBox (V3.zero.add ⟨0, 0, 0⟩) brick2x2Box) ∧
    resolvedRequiredY (4/25) [c2Base] c2Hover = some (4/5) ∧
    c2Hover.pos.y ≥ 4/5 - 1/20 ∧
    (findValidPlacementPosition (4/25) [c2Base] c2Hover).y
        + ((translateBox (V3.zero.add ⟨0, 5, 0⟩) brick2x2Box).minY - c2Hover.pos.y) = 5 ∧
    claimedRestingBottom (4/25) (translateBox (V3.zero.add ⟨0, 5, 0⟩) brick2x2Box)
        ((allPlacedMeshesOf [c2Base] c2Hover).map Prod.snd) = 4/5 ∧
    (5 : ℚ) ≠ 4/5 := by
  refine ⟨?_, ?_, ?_, ?_, ?_, by norm_num⟩
  · norm_num [overlapXZ, translateBox, V3.add, V3.zero, brick2x2Box]
  · norm_num [resolvedRequiredY, allPlacedMeshesOf, getMeshes, getMeshesList,
      requiredGroupY, partLoop, omax, overlapXZ, stackTolerance, jsOr, translateBox,
      V3.add, V3.zero, SceneNode.pos, SceneNode.uuid, c2Base, c2Hover, brick2x2Box]
  · norm_num [c2Hover, SceneNode.pos]
  · norm_num [findValidPlacementPosition, resolvedRequiredY, allPlacedMeshesOf,
      getMeshes, getMeshesList, requiredGroupY, partLoop, omax, overlapXZ,
      stackTolerance, jsOr, translateBox, V3.add, V3.zero, SceneNode.pos,
      SceneNode.uuid, c2Base, c2Hover, brick2x2Box]
  · norm_num [claimedRestingBottom, allPlacedMeshesOf, getMeshes, getMeshesList,
      overlapXZ, translateBox, V3.add, V3.zero, SceneNode.pos, SceneNode.uuid,
      c2Base, c2Hover, brick2x2Box]

/-- C2 witness scene (Scenario B), placed brick: a 2×2 brick on the ground. -/
def c2WBase : SceneNode := .mesh 31 ⟨0, 0, 0⟩ brick2x2Box

/-- Witness for the amended C2 (Scenario B): a second 2×2 unit dropped fully
over the first rests with its bottom `studHeight` below the first unit's
top (`0.96 − 0.16 = 0.8`). -/
theorem findValid_interlock_C2_witness :
    (findValidPlacementPosition (4/25) [c2WBase] (.mesh 32 ⟨0, 4/5, 0⟩ brick2x2Box)).y
        + ((translateBox (V3.zero.add ⟨0, 4/5, 0⟩) brick2x2Box).minY - (4/5 : ℚ))
      = claimedRestingBottom (4/25) (translateBox (V3.zero.add ⟨0, 4/5, 0⟩) brick2x2Box)
          ((allPlacedMeshesOf [c2WBase] (.mesh 32 ⟨0, 4/5, 0⟩ brick2x2Box)).map Prod.snd) ∧
    claimedRestingBottom (4/25) (translateBox (V3.zero.add ⟨0, 4/5, 0⟩) brick2x2Box)
        ((allPlacedMeshesOf [c2WBase] (.mesh 32 ⟨0, 4/5, 0⟩ brick2x2Box)).map Prod.snd)
      = 96/100 - 4/25 := by
  constructor
  · exact findValid_interlock_C2_amended (4/25) [c2WBase] 32 ⟨0, 4/5, 0⟩ brick2x2Box (4/5)
      (by norm_num)
      (by
        intro o ho hov
        have : o = translateBox (V3.zero.add ⟨0, 0, 0⟩) brick2x2Box := by
          simpa [allPlacedMeshesOf, getMeshes, getMeshesList, SceneNode.uuid,
            c2WBase] using ho
        subst this
        norm_num [translateBox, V3.add, V3.zero, brick2x2Box, stackTolerance, jsOr])
      (by norm_num [resolvedRequiredY, allPlacedMeshesOf, getMeshes, getMeshesList,
        requiredGroupY, partLoop, omax, overlapXZ, stackTolerance, jsOr, translateBox,
        V3.add, V3.zero, SceneNode.pos, SceneNode.uuid, c2WBase, brick2x2Box])
      (by norm_num) (by norm_num)
  · norm_num [claimedRestingBottom, allPlacedMeshesOf, getMeshes, getMeshesList,
      overlapXZ, translateBox, V3.add, V3.zero, SceneNode.uuid, c2WBase, brick2x2Box]

/-! ## Claim C6 -/

/-- Once `commonParent` is set to a non-`null` value, any later parent that
differs makes the loop abort. -/
theorem commonParentLoop_ne (common : JPar) (hc : common ≠ JPar.null) :
    ∀ l : List JPar, (∃ p ∈ l, p ≠ common) → commonParentLoop common l = none := by
  intro l
  induction l with
  | nil =>
    rintro ⟨p, hp, _⟩
    cases hp
  | cons q rest ih =>
    rintro ⟨p, hp, hpc⟩
    unfold commonParentLoop
    rw [if_neg hc]
    by_cases hqc : q = common
    · rw [if_neg (not_not_intro hqc)]
      rcases List.mem_cons.mp hp with heq | htail
      · exact absurd (heq.trans hqc) hpc
      · exact ih ⟨p, htail, hpc⟩
    · rw [if_pos hqc]

/-- Starting from the `null` sentinel, a list of non-`null` parents that are
not all equal makes the common-parent loop abort. -/
theorem commonParentLoop_mismatch :
    ∀ l : List JPar, (∀ p ∈ l, p ≠ JPar.null) →
      (∃ p ∈ l, ∃ q ∈ l, p ≠ q) → commonParentLoop JPar.null l = none := by
  intro l hnull hmm
  cases l with
  | nil =>
    obtain ⟨p, hp, _⟩ := hmm
    cases hp
  | cons q rest =>
    have hq : commonParentLoop JPar.null (q :: rest) = commonParentLoop q rest := by
      show (if JPar.null = JPar.null then commonParentLoop q rest
        else if q ≠ JPar.null then none else commonParentLoop JPar.null rest)
        = commonParentLoop q rest
      rw [if_pos rfl]
    rw [hq]
    apply commonParentLoop_ne q (hnull q (List.mem_cons_self _ _))
    obtain ⟨a, ha, b, hb, hab⟩ := hmm
    by_cases haq : a = q
    · subst haq
      rcases List.mem_cons.mp hb with heq | htail
      · exact absurd heq.symm hab
      · exact ⟨b, htail, fun hbq => hab hbq.symm⟩
    · rcases List.mem_cons.mp ha with heq | htail
      · exact absurd heq haq
      · exact ⟨a, htail, haq⟩

/-- C6: `groupSelected` is atomic on invalid input. When fewer than two
objects are selected, or the selected objects (all present in the scene
graph) do not all share the same immediate parent, the operation returns
with no effect: the state — scene hierarchy, `placedBricks` list, selection,
and thereby every object's parent and transform — is unchanged, no group is
created, and no notification is emitted. -/
theorem groupSelected_abort_C6 (s : IMState) (freshUuid : ℕ)
    (hfound : ∀ u ∈ s.selectedObjects, jparOf s u ≠ JPar.null)
    (hbad : s.selectedObjects.length < 2 ∨
      ∃ u ∈ s.selectedObjects, ∃ v ∈ s.selectedObjects, jparOf s u ≠ jparOf s v) :
    groupSelected s freshUuid = (s, []) := by
  by_cases hlen : s.selectedObjects.length < 2
  · unfold groupSelected
    rw [if_pos hlen]
  · have hmm : ∃ u ∈ s.selectedObjects, ∃ v ∈ s.selectedObjects,
        jparOf s u ≠ jparOf s v := hbad.resolve_left hlen
    have hnone : commonParentLoop JPar.null (s.selectedObjects.map (jparOf s)) = none := by
      apply commonParentLoop_mismatch
      · intro p hp
        obtain ⟨u, hu, hpu⟩ := List.mem_map.mp hp
        exact hpu ▸ hfound u hu
      · obtain ⟨u, hu, v, hv, huv⟩ := hmm
        exact ⟨jparOf s u, List.mem_map_of_mem _ hu, jparOf s v,
          List.mem_map_of_mem _ hv, huv⟩
    simp only [groupSelected]
    rw [if_neg hlen, hnone]

/-- C6 witness scene: object 1 is a top-level mesh, object 2 lives inside
group 10; both are selected, so their immediate parents differ. -/
def mixedParentState : IMState :=
  ⟨[.mesh 1 ⟨0, 0, 0⟩ ⟨0, 0, 0, 1, 1, 1⟩,
    .group 10 ⟨0, 0, 0⟩ [.mesh 2 ⟨0, 0, 0⟩ ⟨0, 0, 0, 1, 1, 1⟩]],
   [1, 10], [1, 2]⟩

/-- Witness for C6: grouping a top-level object with a grouped one is a
no-op. -/
theorem groupSelected_abort_C6_witness :
    groupSelected mixedParentState 99 = (mixedParentState, []) := by
  apply groupSelected_abort_C6
  · decide
  · right
    decide

/-! ## Claim C7 -/

/-- C7: after `deleteSelected` the selection set is empty — in particular
every deleted id is absent from it —, the operation ends by publishing
`onSelectionChanged([])`, and every `onSelectionChanged` payload it emits
omits every id. -/
theorem deleteSelected_selection_C7 (s : IMState) :
    (deleteSelected s).1.selectedObjects = [] ∧
    (∀ u ∈ s.selectedObjects, u ∉ (deleteSelected s).1.selectedObjects) ∧
    (deleteSelected s).2.getLast? = some (UIEvent.selectionChanged []) ∧
    ∀ (u : ℕ) (ids : List ℕ),
      UIEvent.selectionChanged ids ∈ (deleteSelected s).2 → u ∉ ids := by
  have hsel : (deleteSelected s).1.selectedObjects = [] := rfl
  have hev : (deleteSelected s).2
      = (jsUnique ((s.selectedObjects.foldl deleteOneStep
            (s.sceneChildren, s.placedBricks, [])).2.2)).map UIEvent.brickRemoved
        ++ (cleanupSingleChildGroups
            ⟨(s.selectedObjects.foldl deleteOneStep
                (s.sceneChildren, s.placedBricks, [])).1,
              (s.selectedObjects.foldl deleteOneStep
                (s.sceneChildren, s.placedBricks, [])).2.1, []⟩).2.map UIEvent.brickRemoved
        ++ [UIEvent.selectionChanged []] := rfl
  refine ⟨hsel, fun u _ => by rw [hsel]; exact List.not_mem_nil u, ?_, ?_⟩
  · rw [hev]
    exact List.getLast?_concat _
  · intro u ids hmem
    rw [hev] at hmem
    simp only [List.mem_append, List.mem_map, List.mem_singleton] at hmem
    rcases hmem with (⟨a, _, ha⟩ | ⟨a, _, ha⟩) | ha
    · exact absurd ha (by simp)
    · exact absurd ha (by simp)
    · have hids : ids = [] := (UIEvent.selectionChanged.injEq _ _).mp ha
      rw [hids]
      exact List.not_mem_nil u

/-- Witness for C7 on a concrete (empty) state: the selection ends empty and
the final `onSelectionChanged([])` payload omits the id 5. -/
theorem deleteSelected_selection_C7_witness :
    (deleteSelected ⟨[], [], []⟩).1.selectedObjects = [] ∧ (5 : ℕ) ∉ ([] : List ℕ) := by
  refine ⟨(deleteSelected_selection_C7 ⟨[], [], []⟩).1,
    (deleteSelected_selection_C7 ⟨[], [], []⟩).2.2.2 5 [] ?_⟩
  exact List.mem_cons_self _ _

end Lego
